import Mathlib

/-!
Verification of the multi-agent web-app builder (`src/ui/multi_agent.py`).

The Python program is shallowly embedded below:
* chat messages (`ChatMessageContent` / the `all_messages` dicts) become `Msg`;
* `ApprovalTerminationStrategy.should_agent_terminate` (lines 26-54) becomes
  `should_agent_terminate`;
* `extract_html_code` (lines 117-132) becomes `extract_html_code`, with the
  regex `r"(triple-backtick)html\s*([\s\S]*?)(triple-backtick)"` under
  `IGNORECASE | DOTALL` given an explicit operational semantics
  (`regexSearchHtml`);
* the generated bash deployment script (lines 218-269, written by
  `create_git_script`) becomes `push_to_github_script` over an abstract
  repository state;
* the working-directory discipline of `setup_git_environment` (lines 286-388)
  and `save_html_and_push_to_github` (lines 390-444) is modelled by functions
  returning the final working directory;
* the post-conversation logic of `run_multi_agent` (lines 446-558) becomes
  `run_multi_agent`.

Python's `str.lower` / `str.upper` / `str.strip` and the regex class `\s` are
modelled on their ASCII behaviour (`Char.toLower`, `Char.toUpper`, and the six
ASCII whitespace characters), which covers every literal the program matches.
-/

/-- Role of a chat message: `AuthorRole.USER` for user turns, `assistant` for
agent turns (the `role` attribute / dict key in the source). -/
inductive Role where
  | user
  | assistant
  deriving DecidableEq, BEq, Repr

/-- One chat message: the fields of `ChatMessageContent` (and of the
`all_messages` dict entries) that the program reads.  Every message the
program handles has a `content` attribute, so the Python
`hasattr(msg, 'content')` checks are identically true here. -/
structure Msg where
  role : Role
  content : String
  deriving DecidableEq, Repr

/-- Python `s.lower()` (ASCII model): lower-case every character. -/
def pyLower (s : String) : String := String.mk (s.data.map Char.toLower)

/-- Python `s.upper()` (ASCII model): upper-case every character. -/
def pyUpper (s : String) : String := String.mk (s.data.map Char.toUpper)

/-- Python's substring test `needle in hay`, on character lists:
true iff `p` occurs contiguously in the second list. -/
def listInfixOf (p : List Char) : List Char → Bool
  | [] => p.isEmpty
  | c :: t => p.isPrefixOf (c :: t) || listInfixOf p t

/-- Python `needle in hay` on strings. -/
def pyIn (needle hay : String) : Bool := listInfixOf needle.data hay.data

/-- The opening fence marker the program looks for (a triple backtick
followed by `html`); source lines 31 and 119. -/
def htmlFence : String := "```html"

/-- The closing fence marker of the extraction regex (a triple backtick). -/
def closeFence : String := "```"

/-- The gatekeeper literal checked at source lines 43 and 514. -/
def readyMarker : String := "READY FOR USER APPROVAL"

/-- The user-approval literal checked at source line 51. -/
def approvedMarker : String := "APPROVED"

/-- Gate 1 of `should_agent_terminate` (source lines 28-33): some message has
truthy (non-empty) content whose lower-cased text contains the html fence. -/
def hasHtmlCode (history : List Msg) : Bool :=
  history.any fun msg => msg.content != "" && pyIn htmlFence (pyLower msg.content)

/-- Gate 2 of `should_agent_terminate` (source lines 40-45): scanning the
history newest-first, some message has truthy content whose upper-cased text
contains `READY FOR USER APPROVAL`.  No role or author is checked. -/
def readyForApproval (history : List Msg) : Bool :=
  history.reverse.any fun msg =>
    msg.content != "" && pyIn readyMarker (pyUpper msg.content)

/-- Gate 3 of `should_agent_terminate` (source lines 48-52): scanning
newest-first, some message with role `USER` has upper-cased text containing
`APPROVED` (no truthiness check on content at this line of the source). -/
def userApproved (history : List Msg) : Bool :=
  history.reverse.any fun msg =>
    msg.role == Role.user && pyIn approvedMarker (pyUpper msg.content)

/-- `ApprovalTerminationStrategy.should_agent_terminate` (source lines 26-54):
return False unless gate 1 holds; then, if gate 2 holds, return gate 3,
otherwise False.  (The unused `agent` parameter is dropped.) -/
def should_agent_terminate (history : List Msg) : Bool :=
  if !hasHtmlCode history then false
  else if readyForApproval history then userApproved history
  else false

/-- The regex class `\s` on ASCII: space, tab, newline, carriage return,
vertical tab (11) and form feed (12).  Python `str.strip()` strips the same
set on the program's data. -/
def pyIsSpace (c : Char) : Bool :=
  c == ' ' || c == '\t' || c == '\n' || c == '\r' ||
  c == Char.ofNat 11 || c == Char.ofNat 12

/-- Case-insensitive match of the (lower-case) pattern `p` against the start
of a text: each text character lower-cased must equal the pattern
character.  This is `re.IGNORECASE` matching of a literal on ASCII. -/
def ciStarts : List Char → List Char → Bool
  | [], _ => true
  | _ :: _, [] => false
  | p :: ps, c :: cs => (p == c.toLower) && ciStarts ps cs

/-- Scan for the first case-insensitive occurrence of the opening html fence
and return the text that follows it, or `none`.  This is where the leftmost
match of the extraction regex starts: the pattern begins with the literal
fence, so `re.search` anchors at its first occurrence. -/
def dropAfterOpen : List Char → Option (List Char)
  | [] => none
  | c :: t =>
    if ciStarts htmlFence.data (c :: t) then
      some (List.drop htmlFence.data.length (c :: t))
    else dropAfterOpen t

/-- Return the text strictly before the first occurrence of the closing
triple-backtick fence, or `none` if there is no closing fence.  Because the
captured group of the regex is lazy, the group ends at this first closing
fence (the smallest enclosed span). -/
def splitAtClose : List Char → Option (List Char)
  | [] => none
  | c :: t =>
    if closeFence.data.isPrefixOf (c :: t) then some []
    else
      match splitAtClose t with
      | some b => some (c :: b)
      | none => none

/-- Operational semantics of
`re.search(r"(fence)html\s*([\s\S]*?)(fence)", s, IGNORECASE | DOTALL)`,
returning the captured group: anchor at the first case-insensitive occurrence
of the opening fence, greedily skip whitespace (`\s*`), then capture lazily up
to the first closing triple backtick.  If the first opening fence is never
closed, no later start can succeed either -- any later occurrence of the
opening fence would itself contain a closing triple backtick after the first
anchor -- so the whole search fails, as encoded here. -/
def regexSearchHtml (s : List Char) : Option (List Char) :=
  match dropAfterOpen s with
  | none => none
  | some rest => splitAtClose (rest.dropWhile pyIsSpace)

/-- Python `str.strip()`: drop whitespace from both ends. -/
def pyStrip (l : List Char) : List Char :=
  ((l.dropWhile pyIsSpace).reverse.dropWhile pyIsSpace).reverse

/-- The per-message body of the `extract_html_code` loop (source lines
121-129): run the regex search on the message content; on a match, strip the
captured group and accept it only if non-empty.  `re.search` considers only
the first (leftmost) match in a message, so a message whose first block strips
to empty yields nothing. -/
def acceptedMatch (msg : Msg) : Option String :=
  match regexSearchHtml msg.content.data with
  | none => none
  | some g =>
    if (pyStrip g).isEmpty then none else some (String.mk (pyStrip g))

/-- `extract_html_code` (source lines 117-132): scan messages oldest-first and
return the first accepted match, else `None`.  (Every embedded message is a
dict with a `content` key, so the `isinstance` guard always passes.) -/
def extract_html_code : List Msg → Option String
  | [] => none
  | msg :: rest =>
    match acceptedMatch msg with
    | some s => some s
    | none => extract_html_code rest

/-- Abstract state of the target git repository, as far as the generated
deployment script observes and mutates it: whether `.git` exists, whether a
committer identity is configured, the `index.html` content recorded in the
last commit, in the index, and in the working tree, and how many commits have
been made. -/
structure RepoState where
  initialized : Bool
  userConfigured : Bool
  committed : Option String
  staged : Option String
  workFile : Option String
  commitCount : Nat
  deriving DecidableEq, Repr

/-- Semantics of the bash script written by `create_git_script` (source lines
218-269, `push_to_github.sh`), over `RepoState`; the two booleans say whether
`git push origin main` / `git push origin master` would succeed.  Returns the
script's exit code and the resulting repository state.
Step by step: initialize the repository if `.git` is absent (lines 227-230);
configure the committer identity if unset (lines 233-237); fail with exit 1
if `index.html` is absent (lines 240-245); `git add index.html` (line 248);
`git diff --staged --quiet` -- if the staged file equals the committed one,
print `No changes to commit.` and exit 0 (lines 251-254); otherwise commit
(line 257) and push, trying `main` then `master`, exit 1 if both fail
(lines 260-268). -/
def push_to_github_script (st : RepoState) (pushMainOk pushMasterOk : Bool) :
    Nat × RepoState :=
  let st1 := if st.initialized then st else { st with initialized := true }
  let st2 := if st1.userConfigured then st1 else { st1 with userConfigured := true }
  match st2.workFile with
  | none => (1, st2)
  | some w =>
    let st3 := { st2 with staged := some w }
    if st3.staged == st3.committed then (0, st3)
    else
      let st4 := { st3 with committed := some w, commitCount := st3.commitCount + 1 }
      if pushMainOk || pushMasterOk then (0, st4) else (1, st4)

/-- Repository-state effect of `save_html_and_push_to_github` (source lines
390-436): write the artifact to `index.html` in the target directory
(overwriting any prior content, lines 402-404), materialize the script, and
run it there.  Returns the script's exit code and the final repository
state. -/
def save_html_and_push_to_github (htmlCode : String) (st : RepoState)
    (pushMainOk pushMasterOk : Bool) : Nat × RepoState :=
  push_to_github_script { st with workFile := some htmlCode } pushMainOk pushMasterOk

/-- Outcome of one `subprocess.run` call: exit code 0, non-zero exit code, or
`TimeoutExpired`. -/
inductive Proc where
  | ok
  | fail
  | timeout
  deriving DecidableEq, Repr

/-- One outcome per subprocess call site of `setup_git_environment`
(source lines 286-388), in source order. -/
structure GitEnvCalls where
  version : Proc
  statusCall : Proc
  initCall : Proc
  safeParent : Proc
  safeTarget : Proc
  safeStar : Proc
  cfgName : Proc
  cfgEmail : Proc
  localName : Proc
  localEmail : Proc
  getUrl : Proc
  remoteAdd : Proc
  setUrl : Proc
  deriving DecidableEq, Repr

/-- Working-directory model of `setup_git_environment` (source lines 286-388):
`cwd0` is the caller's current directory, `gitInstalled` says whether the
`git` binary exists (checked first, line 304, where `CalledProcessError`,
`FileNotFoundError` and `TimeoutExpired` are all caught).  The function
records `original_dir` (line 299), changes into the target directory
(line 300), and on every return path changes back (lines 309, 323, 387).
The safe-directory/user-config block (lines 327-356) catches `TimeoutExpired`
at line 345 and falls back to a local configuration attempt whose bare
`except` (line 355) swallows everything; the remote block (lines 358-384)
catches `CalledProcessError` at lines 374/380 and everything else at
line 383; so neither block can leave the function.  Returns the function's
boolean result and the caller's working directory after the call. -/
def setup_git_environment_cwd (cwd0 target : String) (gitInstalled : Bool)
    (e : GitEnvCalls) : Bool × String :=
  -- os.chdir(target_directory) happens here; each branch below models one
  -- return statement, all of which run os.chdir(original_dir) first.
  if !gitInstalled || e.version != Proc.ok then (false, cwd0)
  else if e.statusCall == Proc.timeout then (false, cwd0)
  else if e.statusCall == Proc.fail && e.initCall != Proc.ok then (false, cwd0)
  else (true, cwd0)

/-- Outcome of executing the deployment script (source lines 417-424):
it runs to completion with an exit code, raises `TimeoutExpired` after 60
seconds, or raises some other exception. -/
inductive ScriptRun where
  | exits (code : Nat)
  | timeout
  | raises
  deriving DecidableEq, Repr

/-- Working-directory model of `save_html_and_push_to_github` (source lines
390-444).  `writeOk` is the `index.html` write (lines 402-404), `scriptOk`
the script write inside `create_git_script` (lines 272-284); if either
raises, the handler at lines 441-444 finds no `original_dir` in scope and the
working directory was never changed.  Otherwise `original_dir` is recorded
(line 413), the directory is changed (line 414), and the `finally` at lines
434-436 restores it on completion and on both exception paths (the handlers
at lines 438-444 change to `original_dir` again, a no-op).  Returns the
caller's working directory after the call. -/
def save_html_and_push_cwd (cwd0 target : String) (writeOk scriptOk : Bool)
    (r : ScriptRun) : String :=
  if !writeOk then cwd0
  else if !scriptOk then cwd0
  else
    match r with
    | ScriptRun.exits _ => cwd0
    | ScriptRun.timeout => cwd0
    | ScriptRun.raises => cwd0

/-- The summary dict returned by `run_multi_agent` (source lines 549-554);
the `target_directory` entry is a constant and is omitted. -/
structure Summary where
  messages : List Msg
  status : String
  html_extracted : Bool
  deriving DecidableEq, Repr

/-- Result of one `run_multi_agent` call: the returned value (`none` models
Python `None`) together with whether `save_html_and_push_to_github` was
invoked (an effect of the run, recorded for the deployment claims). -/
structure RunResult where
  summary : Option Summary
  deployInvoked : Bool
  deriving DecidableEq, Repr

/-- The initial user message (source line 495). -/
def mkUserMsg (input : String) : Msg := { role := Role.user, content := input }

/-- The synthesized approval turn appended at source line 537. -/
def approvedMsg : Msg := { role := Role.user, content := "APPROVED" }

/-- The ready-for-approval check of `run_multi_agent` (source lines 513-517):
any message whose upper-cased content contains the marker (no role check, no
truthiness check). -/
def readyAny (l : List Msg) : Bool :=
  l.any fun m => pyIn readyMarker (pyUpper m.content)

/-- The post-conversation logic of `run_multi_agent` (source lines 512-554),
as a function of the accumulated message list: if the ready marker is
present, try to extract the html; on success append the synthesized
`APPROVED` user turn (line 537) and invoke the deployment (line 542); on
failure only print (line 545).  Returns the summary dict of lines 549-554
(status is `completed` iff the ready marker was present) and whether the
deployment was invoked. -/
def finishRun (all0 : List Msg) : Summary × Bool :=
  if readyAny all0 then
    match extract_html_code all0 with
    | some _ =>
      ({ messages := all0 ++ [approvedMsg], status := "completed",
         html_extracted := true }, true)
    | none =>
      ({ messages := all0, status := "completed", html_extracted := false }, false)
  else
    ({ messages := all0, status := "incomplete", html_extracted := false }, false)

/-- `run_multi_agent` (source lines 446-558) as a function of its external
interactions: `gitOk` is the result of `setup_git_environment` (a failure
returns `None` at line 460); `replies` are the agent messages the
`chat.invoke()` loop appends to `all_messages` (lines 500-506);
`completionFails` says whether an exception is raised inside the `try`
(kernel creation or the completion capability), in which case the handler at
lines 556-558 prints and returns `None`, discarding `all_messages`. -/
def run_multi_agent (input : String) (gitOk : Bool) (replies : List Msg)
    (completionFails : Bool) : RunResult :=
  if !gitOk then { summary := none, deployInvoked := false }
  else if completionFails then { summary := none, deployInvoked := false }
  else
    let all0 := mkUserMsg input :: replies
    let sd := finishRun all0
    { summary := some sd.1, deployInvoked := sd.2 }

/-- Modelled from the spec: the bounded conversation loop of the orchestrator
(spec 4.4, `Running`).  The loop itself is implemented by the external
agent-chat library (`AgentGroupChat.invoke`), not by code under `src/`; the
spec requires that the implementation impose a maximum turn count and query
the termination predicate after every appended turn.  `reply i` is the
participant turn produced at iteration `i`; the result is the accumulated
transcript and whether the termination predicate fired before the bound was
reached. -/
def conversationLoopAux (reply : Nat → Msg) : Nat → Nat → List Msg → List Msg × Bool
  | 0, _, acc => (acc, false)
  | k + 1, i, acc =>
    if should_agent_terminate (acc ++ [reply i]) then (acc ++ [reply i], true)
    else conversationLoopAux reply k (i + 1) (acc ++ [reply i])

/-- Modelled from the spec: run the conversation loop for at most `turnBound`
turns starting from the seeded transcript. -/
def conversationLoop (turnBound : Nat) (reply : Nat → Msg) (init : List Msg) :
    List Msg × Bool :=
  conversationLoopAux reply turnBound 0 init

/-- `run_multi_agent` with the spec-modelled bounded loop supplying the agent
replies: seed the transcript with the user turn (source line 495), run the
loop, then apply the post-conversation logic of source lines 512-554. -/
def run_with_turn_bound (input : String) (turnBound : Nat) (reply : Nat → Msg) :
    Summary × Bool :=
  finishRun (conversationLoop turnBound reply [mkUserMsg input]).1

/-- A participant message with no fence, no marker (used as a concrete
input in witnesses). -/
def plainMsg : Msg := { role := Role.assistant, content := "hello there" }

/-- A participant message carrying a well-formed html fence. -/
def mHtml : Msg := { role := Role.assistant, content := "here: ```html\n<p>hi</p>\n``` done" }

/-- A participant message carrying the ready marker. -/
def mReady : Msg := { role := Role.assistant, content := "READY FOR USER APPROVAL" }

/-- A user message carrying the approval word. -/
def mApprovedUser : Msg := { role := Role.user, content := "APPROVED" }

/-- A message with no accepted fenced block. -/
def msgPlain : Msg := { role := Role.assistant, content := "no code here" }

/-- First message with a well-formed fenced block (interior `<p>x</p>`). -/
def msgBlock1 : Msg := { role := Role.assistant, content := "first: ```html\n<p>x</p>\n``` done" }

/-- Second message with a well-formed fenced block (interior `<p>y</p>`). -/
def msgBlock2 : Msg := { role := Role.assistant, content := "```html\n<p>y</p>\n```" }

/-! ## Helper lemmas -/

theorem mk_data (l : List Char) : (String.mk l).data = l := rfl

theorem empty_data : ("" : String).data = [] := rfl

theorem listInfixOf_nil (p : List Char) : listInfixOf p [] = p.isEmpty := rfl

/-- A non-empty needle is never a substring of the image of the empty
string under a character map, so a successful `pyIn` forces the searched
message content to be truthy in Python's sense. -/
theorem pyIn_map_nonempty (p s : String) (f : Char → Char) (hp : p.data ≠ [])
    (h : pyIn p (String.mk (s.data.map f)) = true) : (s != "") = true := by
  rw [bne_iff_ne]
  intro he
  subst he
  rw [show pyIn p (String.mk (("" : String).data.map f)) = p.data.isEmpty from rfl] at h
  rw [List.isEmpty_iff] at h
  exact hp h

/-- Dropping the Python truthiness guard `msg.content and ...` does not
change a gate whose body already forces non-empty content. -/
theorem guard_and (s : String) (b : Bool) (h : b = true → (s != "") = true) :
    ((s != "") && b) = b := by
  cases hb : b
  · simp
  · simp [h hb]

theorem any_reverse_eq {α : Type} (p : α → Bool) (l : List α) :
    l.reverse.any p = l.any p := by
  induction l with
  | nil => rfl
  | cons a t ih => simp [List.any_append, ih, Bool.or_comm]

/-- Gate 1 without the redundant truthiness guard. -/
theorem hasHtmlCode_eq (h : List Msg) :
    hasHtmlCode h = h.any fun m => pyIn htmlFence (pyLower m.content) := by
  unfold hasHtmlCode
  congr 1
  funext m
  exact guard_and _ _ fun hb =>
    pyIn_map_nonempty htmlFence m.content Char.toLower (by decide) hb

/-- Gate 2: the newest-first scan is an existence check, and the truthiness
guard is redundant. -/
theorem readyForApproval_eq (h : List Msg) :
    readyForApproval h = h.any fun m => pyIn readyMarker (pyUpper m.content) := by
  unfold readyForApproval
  rw [any_reverse_eq]
  congr 1
  funext m
  exact guard_and _ _ fun hb =>
    pyIn_map_nonempty readyMarker m.content Char.toUpper (by decide) hb

/-- Gate 3: the newest-first scan is an existence check. -/
theorem userApproved_eq (h : List Msg) :
    userApproved h = h.any fun m =>
      m.role == Role.user && pyIn approvedMarker (pyUpper m.content) :=
  any_reverse_eq _ _

theorem role_beq_user (r : Role) : ((r == Role.user) = true) ↔ r = Role.user := by
  cases r <;> decide

/-- The termination strategy is the conjunction of its three gates. -/
theorem terminate_eq_and (h : List Msg) :
    should_agent_terminate h =
      (hasHtmlCode h && (readyForApproval h && userApproved h)) := by
  cases h1 : hasHtmlCode h <;> cases h2 : readyForApproval h <;>
    cases h3 : userApproved h <;>
    simp [should_agent_terminate, h1, h2, h3]

/-- Characterization of `should_agent_terminate` as three existential gates
over the history. -/
theorem terminate_iff (h : List Msg) :
    should_agent_terminate h = true ↔
      ((∃ m, m ∈ h ∧ pyIn htmlFence (pyLower m.content) = true) ∧
       (∃ m, m ∈ h ∧ pyIn readyMarker (pyUpper m.content) = true) ∧
       (∃ m, m ∈ h ∧ m.role = Role.user ∧
         pyIn approvedMarker (pyUpper m.content) = true)) := by
  rw [terminate_eq_and, Bool.and_eq_true, Bool.and_eq_true,
    hasHtmlCode_eq, readyForApproval_eq, userApproved_eq]
  simp only [List.any_eq_true, Bool.and_eq_true, role_beq_user]

/-! ## Claim theorems -/

/-- Claim C1: for every chat history, `should_agent_terminate` returns true
if and only if all three gates hold: some message contains the
case-insensitive html fence, some message contains the case-insensitive
ready-for-approval marker, and some message with role User contains the
case-insensitive approval word.  In particular a failing gate 1 forces false
regardless of approval text, and an approval word occurring only in non-User
messages never satisfies gate 3. -/
theorem c1_terminate_iff_three_gates (h : List Msg) :
    should_agent_terminate h = true ↔
      ((∃ m, m ∈ h ∧ pyIn htmlFence (pyLower m.content) = true) ∧
       (∃ m, m ∈ h ∧ pyIn readyMarker (pyUpper m.content) = true) ∧
       (∃ m, m ∈ h ∧ m.role = Role.user ∧
         pyIn approvedMarker (pyUpper m.content) = true)) :=
  terminate_iff h

/-- Claim C4: the termination evaluator is a monotone pure function of the
transcript -- if it returns true on a history, it still returns true after
appending one more turn; re-invocation can flip false to true but never true
to false. -/
theorem c4_terminate_monotone_append (h : List Msg) (t : Msg)
    (ht : should_agent_terminate h = true) :
    should_agent_terminate (h ++ [t]) = true := by
  rw [terminate_iff] at ht ⊢
  obtain ⟨⟨m1, hm1, p1⟩, ⟨m2, hm2, p2⟩, ⟨m3, hm3, p3⟩⟩ := ht
  exact ⟨⟨m1, List.mem_append_left _ hm1, p1⟩,
    ⟨m2, List.mem_append_left _ hm2, p2⟩,
    ⟨m3, List.mem_append_left _ hm3, p3⟩⟩

/-- Witness for C4 at a concrete terminating history and appended turn. -/
theorem c4_witness :
    should_agent_terminate
      ([mkUserMsg "x", mHtml, mReady, mApprovedUser] ++ [plainMsg]) = true :=
  c4_terminate_monotone_append [mkUserMsg "x", mHtml, mReady, mApprovedUser]
    plainMsg (by decide)

/-- Claim C10: the gatekeeper-ready gate performs no role or author check --
any message whatsoever whose text contains the case-insensitive ready marker
satisfies gate 2. -/
theorem c10_ready_gate_no_role_check (h : List Msg) (m : Msg) (hm : m ∈ h)
    (hc : pyIn readyMarker (pyUpper m.content) = true) :
    readyForApproval h = true := by
  rw [readyForApproval_eq, List.any_eq_true]
  exact ⟨m, hm, hc⟩

/-- Witness for C10: a lower-case marker inside an assistant (non-user)
message satisfies gate 2. -/
theorem c10_witness :
    readyForApproval
      [{ role := Role.assistant, content := "ready for user approval" }] = true :=
  c10_ready_gate_no_role_check _ _ (List.mem_singleton_self _) (by decide)

/-- An accepted per-message match is never the empty string: the strip
rejects blocks whose interior is all whitespace. -/
theorem acceptedMatch_ne_empty (m : Msg) (s : String)
    (h : acceptedMatch m = some s) : s ≠ "" := by
  unfold acceptedMatch at h
  split at h
  · exact Option.noConfusion h
  · next g _ =>
    split at h
    · exact Option.noConfusion h
    · next hne =>
      obtain rfl : String.mk (pyStrip g) = s := Option.some.inj h
      intro hcontra
      exact hne (by rw [show pyStrip g = [] from congrArg String.data hcontra]; rfl)

/-- A successful extraction comes from some message of the list whose
per-message match was accepted. -/
theorem extract_mem (l : List Msg) (s : String) (h : extract_html_code l = some s) :
    ∃ m, m ∈ l ∧ acceptedMatch m = some s := by
  induction l with
  | nil => exact Option.noConfusion h
  | cons a t ih =>
    simp only [extract_html_code] at h
    split at h
    · next heq => exact ⟨a, List.mem_cons_self a t, heq.trans h⟩
    · obtain ⟨m, hm, hma⟩ := ih h
      exact ⟨m, List.mem_cons_of_mem a hm, hma⟩

/-- Claim C2: `extract_html_code` returns the trimmed interior of the first
accepted match, scanning messages oldest-first -- a returned string is never
empty; a message whose per-message match is accepted determines the result no
matter what follows; and when no message yields an accepted match the result
is `none` (NotFound). -/
theorem c2_extract_first_accepted :
    (∀ msgs s, extract_html_code msgs = some s → s ≠ "") ∧
    (∀ pre, ∀ m : Msg, ∀ rest s, (∀ m2, m2 ∈ pre → acceptedMatch m2 = none) →
      acceptedMatch m = some s →
      extract_html_code (pre ++ m :: rest) = some s) ∧
    (∀ msgs, (∀ m, m ∈ msgs → acceptedMatch m = none) →
      extract_html_code msgs = none) := by
  refine ⟨?_, ?_, ?_⟩
  · intro msgs s h
    obtain ⟨m, _, hma⟩ := extract_mem msgs s h
    exact acceptedMatch_ne_empty m s hma
  · intro pre
    induction pre with
    | nil =>
      intro m rest s _ hm
      simp only [List.nil_append, extract_html_code, hm]
    | cons p ps ih =>
      intro m rest s hpre hm
      have hp : acceptedMatch p = none := hpre p (List.mem_cons_self p ps)
      simp only [List.cons_append, extract_html_code, hp]
      exact ih m rest s (fun q hq => hpre q (List.mem_cons_of_mem p hq)) hm
  · intro msgs
    induction msgs with
    | nil => intro _; rfl
    | cons a t ih =>
      intro hall
      have ha : acceptedMatch a = none := hall a (List.mem_cons_self a t)
      simp only [extract_html_code, ha]
      exact ih fun q hq => hall q (List.mem_cons_of_mem a hq)

/-- Witness for C2: with one block-free message followed by two well-formed
fenced blocks in different messages, the earlier block's trimmed interior is
returned. -/
theorem c2_witness :
    extract_html_code [msgPlain, msgBlock1, msgBlock2] = some "<p>x</p>" :=
  c2_extract_first_accepted.2.1 [msgPlain] msgBlock1 [msgBlock2] "<p>x</p>"
    (by decide) (by decide)

/-- A successful regex search starts from a successful scan for the opening
fence. -/
theorem regexSearch_open (l g : List Char) (h : regexSearchHtml l = some g) :
    ∃ r, dropAfterOpen l = some r := by
  unfold regexSearchHtml at h
  split at h
  · exact Option.noConfusion h
  · next r heq => exact ⟨r, heq⟩

/-- Case-insensitive literal matching is exact matching against the
lower-cased text. -/
theorem ciStarts_eq_map (p t : List Char) :
    ciStarts p t = p.isPrefixOf (t.map Char.toLower) := by
  induction p generalizing t with
  | nil => cases t <;> rfl
  | cons a ps ih =>
    cases t with
    | nil => rfl
    | cons c cs => simp [ciStarts, List.isPrefixOf, ih]

theorem infixOf_of_isPrefixOf (p l : List Char) (h : p.isPrefixOf l = true) :
    listInfixOf p l = true := by
  cases l with
  | nil =>
    cases p with
    | nil => rfl
    | cons a as => exact Bool.noConfusion h
  | cons c t => simp [listInfixOf, h]

theorem infixOf_cons_of_tail (p : List Char) (c : Char) (t : List Char)
    (h : listInfixOf p t = true) : listInfixOf p (c :: t) = true := by
  simp [listInfixOf, h]

/-- If the scan finds the opening fence, the lower-cased text contains the
fence as a substring. -/
theorem dropAfterOpen_fence (l r : List Char) (h : dropAfterOpen l = some r) :
    listInfixOf htmlFence.data (l.map Char.toLower) = true := by
  induction l with
  | nil => exact Option.noConfusion h
  | cons c t ih =>
    simp only [dropAfterOpen] at h
    by_cases hp : ciStarts htmlFence.data (c :: t) = true
    · rw [ciStarts_eq_map] at hp
      exact infixOf_of_isPrefixOf _ _ hp
    · rw [if_neg hp] at h
      rw [List.map_cons]
      exact infixOf_cons_of_tail _ _ _ (ih h)

/-- A successful extraction implies gate 1 of the termination strategy: some
message's lower-cased content contains the opening html fence. -/
theorem extract_gate1 (l : List Msg) (s : String)
    (h : extract_html_code l = some s) :
    ∃ m, m ∈ l ∧ pyIn htmlFence (pyLower m.content) = true := by
  obtain ⟨m, hm, hma⟩ := extract_mem l s h
  refine ⟨m, hm, ?_⟩
  unfold acceptedMatch at hma
  split at hma
  · exact Option.noConfusion hma
  · next g heq =>
    obtain ⟨r, hr⟩ := regexSearch_open _ _ heq
    exact dropAfterOpen_fence _ _ hr

/-- Claim C5 counterexample: a run whose transcript carries the ready marker
but no html fence.  Extraction returns `none` and the pipeline is not
invoked, but the returned summary reports status `completed` -- not an
aborted status with the diagnostic the claim requires. -/
theorem c5_counterexample :
    readyAny [mkUserMsg "x", mReady] = true ∧
    extract_html_code [mkUserMsg "x", mReady] = none ∧
    (run_multi_agent "x" true [mReady] false).deployInvoked = false ∧
    (run_multi_agent "x" true [mReady] false).summary =
      some { messages := [mkUserMsg "x", mReady], status := "completed",
             html_extracted := false } ∧
    ("completed" : String) ≠ "aborted" := by decide

/-- Claim C5 (amended): when the ready-for-approval signal is present but the
extractor returns NotFound, the deployment pipeline is not invoked and the
summary reports no artifact -- but the run's status is `completed`, not an
aborted status. -/
theorem c5_no_artifact_still_completed (input : String) (replies : List Msg)
    (hready : readyAny (mkUserMsg input :: replies) = true)
    (hext : extract_html_code (mkUserMsg input :: replies) = none) :
    run_multi_agent input true replies false =
      { summary := some { messages := mkUserMsg input :: replies,
                          status := "completed", html_extracted := false },
        deployInvoked := false } := by
  unfold run_multi_agent finishRun
  simp [hready, hext]

/-- Witness for the amended C5. -/
theorem c5_witness :
    run_multi_agent "x" true [mReady] false =
      { summary := some { messages := [mkUserMsg "x", mReady],
                          status := "completed", html_extracted := false },
        deployInvoked := false } :=
  c5_no_artifact_still_completed "x" [mReady] (by decide) (by decide)

/-- Claim C6 counterexample: on an unhandled completion failure the run
returns `None` -- no summary at all -- so the partial transcript accumulated
so far is not returned to the caller. -/
theorem c6_counterexample :
    (run_multi_agent "x" true [plainMsg] true).summary = none := by decide

/-- Claim C6 (amended): an unhandled failure of the completion capability
during the run makes `run_multi_agent` return `None`: no status, diagnostic,
or transcript is returned, and the already-produced messages are
discarded. -/
theorem c6_failure_returns_none (input : String) (replies : List Msg) :
    run_multi_agent input true replies true =
      { summary := none, deployInvoked := false } := rfl

/-- Claim C8: when the conversation ends with the ready signal present and
extraction succeeds, the orchestrator appends a User-role `APPROVED` turn to
the transcript and invokes the deployment pipeline, and after the append all
three termination gates hold on the transcript. -/
theorem c8_append_approval_then_deploy (input : String) (replies : List Msg)
    (code : String)
    (hready : readyAny (mkUserMsg input :: replies) = true)
    (hext : extract_html_code (mkUserMsg input :: replies) = some code) :
    run_multi_agent input true replies false =
      { summary := some { messages := (mkUserMsg input :: replies) ++ [approvedMsg],
                          status := "completed", html_extracted := true },
        deployInvoked := true } ∧
    should_agent_terminate ((mkUserMsg input :: replies) ++ [approvedMsg]) = true := by
  constructor
  · unfold run_multi_agent finishRun
    simp [hready, hext]
  · rw [terminate_iff]
    refine ⟨?_, ?_, ?_⟩
    · obtain ⟨m, hm, hp⟩ := extract_gate1 _ _ hext
      exact ⟨m, List.mem_append_left _ hm, hp⟩
    · unfold readyAny at hready
      obtain ⟨m, hm, hp⟩ := List.any_eq_true.mp hready
      exact ⟨m, List.mem_append_left _ hm, hp⟩
    · exact ⟨approvedMsg, List.mem_append_right _ (List.mem_singleton_self _),
        rfl, by decide⟩

/-- Witness for C8 at a concrete successful run. -/
theorem c8_witness :
    run_multi_agent "build" true [mHtml, mReady] false =
      { summary := some { messages := [mkUserMsg "build", mHtml, mReady, approvedMsg],
                          status := "completed", html_extracted := true },
        deployInvoked := true } ∧
    should_agent_terminate [mkUserMsg "build", mHtml, mReady, approvedMsg] = true :=
  c8_append_approval_then_deploy "build" [mHtml, mReady] "<p>hi</p>"
    (by decide) (by decide)

/-- Claim C3: running the deployment pipeline a second time with
byte-identical artifact content is a NoChange no-op -- the second run exits
with code 0 and leaves the repository state (in particular the commit count)
exactly as the first run left it, whenever the first run succeeded. -/
theorem c3_second_run_no_change (htmlCode : String) (st : RepoState)
    (pm pms : Bool)
    (h : (save_html_and_push_to_github htmlCode st pm pms).1 = 0) :
    (save_html_and_push_to_github htmlCode
      (save_html_and_push_to_github htmlCode st pm pms).2 pm pms).1 = 0 ∧
    (save_html_and_push_to_github htmlCode
      (save_html_and_push_to_github htmlCode st pm pms).2 pm pms).2 =
      (save_html_and_push_to_github htmlCode st pm pms).2 := by
  obtain ⟨ini, cfg, com, stg, wf, cnt⟩ := st
  by_cases hc : com = some htmlCode
  · subst hc
    cases ini <;> cases cfg <;>
      simp_all [save_html_and_push_to_github, push_to_github_script]
  · have hbeq : (some htmlCode == com) = false := by
      cases com with
      | none => rfl
      | some c =>
        rcases eq_or_ne c htmlCode with hce | hce
        · exact absurd (by rw [hce]) hc
        · simp [hce.symm]
    cases pm <;> cases pms <;> cases ini <;> cases cfg <;>
      simp_all [save_html_and_push_to_github, push_to_github_script]

/-- Witness for C3 on a fresh repository. -/
theorem c3_witness :
    (save_html_and_push_to_github "hi"
      (save_html_and_push_to_github "hi"
        { initialized := false, userConfigured := false, committed := none,
          staged := none, workFile := none, commitCount := 0 } true true).2
      true true).1 = 0 ∧
    (save_html_and_push_to_github "hi"
      (save_html_and_push_to_github "hi"
        { initialized := false, userConfigured := false, committed := none,
          staged := none, workFile := none, commitCount := 0 } true true).2
      true true).2 =
      (save_html_and_push_to_github "hi"
        { initialized := false, userConfigured := false, committed := none,
          staged := none, workFile := none, commitCount := 0 } true true).2 :=
  c3_second_run_no_change "hi"
    { initialized := false, userConfigured := false, committed := none,
      staged := none, workFile := none, commitCount := 0 } true true (by decide)

/-- Claim C7: both deployment-pipeline entry points restore the caller's
working directory on every exit path -- for every combination of git
availability, subprocess outcomes, write failures, script exit codes,
timeouts and exceptions, the working directory after the call equals the
working directory before it. -/
theorem c7_cwd_restored (cwd0 target : String) (gitInstalled : Bool)
    (e : GitEnvCalls) (writeOk scriptOk : Bool) (r : ScriptRun) :
    (setup_git_environment_cwd cwd0 target gitInstalled e).2 = cwd0 ∧
    save_html_and_push_cwd cwd0 target writeOk scriptOk r = cwd0 := by
  constructor
  · unfold setup_git_environment_cwd
    split
    · rfl
    split
    · rfl
    split
    · rfl
    · rfl
  · unfold save_html_and_push_cwd
    split
    · rfl
    split
    · rfl
    cases r <;> rfl

/-- The conversation loop only appends: the seeded transcript is a prefix of
the loop's result. -/
theorem loopAux_prefix (reply : Nat → Msg) :
    ∀ (k i : Nat) (acc : List Msg), acc <+: (conversationLoopAux reply k i acc).1 := by
  intro k
  induction k with
  | zero => intro i acc; exact List.prefix_refl acc
  | succ n ih =>
    intro i acc
    simp only [conversationLoopAux]
    split
    · exact List.prefix_append acc [reply i]
    · exact (List.prefix_append acc [reply i]).trans (ih (i + 1) (acc ++ [reply i]))

/-- The post-conversation logic only ever appends the synthesized approval
turn: the loop transcript is a prefix of the summary's message list. -/
theorem finishRun_messages (all0 : List Msg) :
    all0 <+: (finishRun all0).1.messages := by
  unfold finishRun
  split
  · split
    · exact List.prefix_append _ _
    · exact List.prefix_refl _
  · exact List.prefix_refl _

/-- The returned status is always `completed` or `incomplete`; the source has
no aborted status. -/
theorem finishRun_status (all0 : List Msg) :
    (finishRun all0).1.status = "completed" ∨
      (finishRun all0).1.status = "incomplete" := by
  unfold finishRun
  split
  · split
    · exact Or.inl rfl
    · exact Or.inl rfl
  · exact Or.inr rfl

/-- Claim C9 counterexample: a run whose turn bound (one turn) is reached
without the termination predicate firing returns status `incomplete`, not an
aborted status as the claim states. -/
theorem c9_counterexample :
    (conversationLoop 1 (fun _ => plainMsg) [mkUserMsg "x"]).2 = false ∧
    (run_with_turn_bound "x" 1 (fun _ => plainMsg)).1.status = "incomplete" ∧
    (run_with_turn_bound "x" 1 (fun _ => plainMsg)).1.status ≠ "aborted" := by
  decide

/-- Claim C9 (amended): when the turn bound is reached without the
termination predicate becoming true, the run does not loop unboundedly: it
returns a summary whose message list preserves the whole non-empty loop
transcript; its status is `incomplete` or `completed`, never an aborted
status. -/
theorem c9_bound_reached_summary (input : String) (turnBound : Nat)
    (reply : Nat → Msg)
    (hterm : (conversationLoop turnBound reply [mkUserMsg input]).2 = false) :
    (conversationLoop turnBound reply [mkUserMsg input]).1 ≠ [] ∧
    (conversationLoop turnBound reply [mkUserMsg input]).1 <+:
      (run_with_turn_bound input turnBound reply).1.messages ∧
    (run_with_turn_bound input turnBound reply).1.messages ≠ [] ∧
    (run_with_turn_bound input turnBound reply).1.status ≠ "aborted" ∧
    ((run_with_turn_bound input turnBound reply).1.status = "incomplete" ∨
      (run_with_turn_bound input turnBound reply).1.status = "completed") := by
  have hpre : [mkUserMsg input] <+: (conversationLoop turnBound reply [mkUserMsg input]).1 :=
    loopAux_prefix reply turnBound 0 [mkUserMsg input]
  have hne : (conversationLoop turnBound reply [mkUserMsg input]).1 ≠ [] := by
    intro h0
    obtain ⟨tail, htail⟩ := hpre
    rw [h0] at htail
    exact absurd (List.append_eq_nil.mp htail).1 (by simp)
  have hmsg : (conversationLoop turnBound reply [mkUserMsg input]).1 <+:
      (run_with_turn_bound input turnBound reply).1.messages :=
    finishRun_messages _
  refine ⟨hne, hmsg, ?_, ?_, ?_⟩
  · intro h0
    obtain ⟨tail, htail⟩ := hmsg
    rw [h0] at htail
    exact hne (List.append_eq_nil.mp htail).1
  · rcases finishRun_status (conversationLoop turnBound reply [mkUserMsg input]).1 with hs | hs <;>
      rw [show (run_with_turn_bound input turnBound reply).1.status =
        (finishRun (conversationLoop turnBound reply [mkUserMsg input]).1).1.status from rfl,
        hs] <;> decide
  · exact Or.symm (finishRun_status _)

/-- Witness for the amended C9: two turns of a participant who never emits an
artifact. -/
theorem c9_witness :
    (conversationLoop 2 (fun _ => plainMsg) [mkUserMsg "y"]).1 ≠ [] ∧
    (conversationLoop 2 (fun _ => plainMsg) [mkUserMsg "y"]).1 <+:
      (run_with_turn_bound "y" 2 (fun _ => plainMsg)).1.messages ∧
    (run_with_turn_bound "y" 2 (fun _ => plainMsg)).1.messages ≠ [] ∧
    (run_with_turn_bound "y" 2 (fun _ => plainMsg)).1.status ≠ "aborted" ∧
    ((run_with_turn_bound "y" 2 (fun _ => plainMsg)).1.status = "incomplete" ∨
      (run_with_turn_bound "y" 2 (fun _ => plainMsg)).1.status = "completed") :=
  c9_bound_reached_summary "y" 2 (fun _ => plainMsg) (by decide)
